import Mathlib

/-!
Verification of the interactive viewport / geometric visualization engine of a
two-variable linear-program visualizer (an Angular component, `app.ts`).

The shallow embedding translates the component's state and handlers into pure
Lean functions over an `AppState` record.  JavaScript numbers are modelled as
rationals (`ℚ`); the one place where the code explicitly tests `isFinite` (the
feasible region received from the backend) uses a lifted type `JsNum` that can
also hold `Infinity`, `-Infinity` and `NaN`.  JavaScript division, which never
traps but produces a non-finite number when the divisor is zero, is modelled by
`jsDiv : ℚ → ℚ → Option ℚ` (`none` = non-finite result); the JavaScript
falsy-coalescing pattern `a || b` on numbers is `jsOr`.

Presentation-only fields of the component (narrative strings built by
`updateStep`, the example-context record, the backend health flag and the
`maximize` toggle) are omitted: no handler's control flow over the modelled
fields depends on them.  The `viewBox` string is modelled by the 4-tuple of
rationals it prints.
-/

/-- A JavaScript number: a finite rational or one of the non-finite values. -/
inductive JsNum where
  | num (q : ℚ)
  | posInf
  | negInf
  | nan
  deriving DecidableEq, Repr

/-- The JavaScript `isFinite` test. -/
def JsNum.isFinite : JsNum → Bool
  | .num _ => true
  | _ => false

/-- Extract the rational value of a finite JavaScript number (junk 0 otherwise;
only applied behind an `isFinite` guard, mirroring the source). -/
def JsNum.toQ : JsNum → ℚ
  | .num q => q
  | _ => 0

/-- A backend point of the feasible region; its coordinates may be non-finite,
which the source code explicitly guards against. -/
structure JsPoint where
  x : JsNum
  y : JsNum
  deriving DecidableEq, Repr

/-- A point in problem space (finite coordinates). -/
structure Point where
  x : ℚ
  y : ℚ
  deriving DecidableEq, Repr

/-- Coefficients of the linear objective. -/
structure Objective where
  x : ℚ
  y : ℚ
  deriving DecidableEq, Repr

/-- The comparison operator of a constraint. -/
inductive CmpOp where
  | le
  | ge
  | eq
  deriving DecidableEq, Repr

/-- A half-plane constraint `x·x₁ + y·x₂ operator rhs`. -/
structure Constraint where
  x : ℚ
  y : ℚ
  operator : CmpOp
  rhs : ℚ
  deriving DecidableEq, Repr

/-- A finite rendered line segment. -/
structure Segment where
  x1 : ℚ
  y1 : ℚ
  x2 : ℚ
  y2 : ℚ
  deriving DecidableEq, Repr

/-- The optimal vertex and objective value of a solved LP. -/
structure OptimalSolution where
  point : Point
  z_value : ℚ
  deriving DecidableEq, Repr

/-- The solve response consumed by the component. -/
structure GraphicSolution where
  status : String
  optimal_solution : Option OptimalSolution
  feasible_region : Option (List JsPoint)
  constraints_lines : List Constraint
  deriving DecidableEq, Repr

/-- The parsed content of the SVG viewBox string. -/
structure ViewBox where
  x : ℚ
  y : ℚ
  w : ℚ
  h : ℚ
  deriving DecidableEq, Repr

/-- The component state (the fields of `AppComponent` relevant to the modelled
behaviour, in source order). -/
structure AppState where
  loading : Bool
  objective : Objective
  constraints : List Constraint
  solution : Option GraphicSolution
  isStepMode : Bool
  currentStep : ℕ
  totalSteps : ℕ
  viewBox : ViewBox
  camX : ℚ
  camY : ℚ
  camWidth : ℚ
  camHeight : ℚ
  isDragging : Bool
  lastMouseX : ℚ
  lastMouseY : ℚ
  gridSize : ℚ
  xTicks : List ℚ
  yTicks : List ℚ
  renderLines : List (Option Segment)
  objLine : Segment
  deriving DecidableEq, Repr

/-- JavaScript `a || b` on numbers: `a` unless `a` is falsy (zero). -/
def jsOr (a b : ℚ) : ℚ := if a = 0 then b else a

/-- JavaScript division: `none` models the non-finite (Infinity/NaN) result of
dividing by zero. -/
def jsDiv (a b : ℚ) : Option ℚ := if b = 0 then none else some (a / b)

/-- Embeds `Math.min(0, ...xs)`. -/
def jsMin0 (l : List ℚ) : ℚ := l.foldl min 0

/-- Embeds `Math.max(...xs)` for a list known to be non-empty (junk 0 on `[]`,
unreachable behind the source's emptiness guard). -/
def listMax : List ℚ → ℚ
  | [] => 0
  | a :: t => t.foldl max a

/-- One pass of the tick-enumeration loop `for (v = lo; v <= hi; v += g)`,
with an explicit fuel bound on the number of iterations. -/
def ticksFromAux (g hi : ℚ) : ℕ → ℚ → List ℚ
  | 0, _ => []
  | n + 1, lo => if lo ≤ hi then lo :: ticksFromAux g hi n (lo + g) else []

/-- The tick-enumeration loop.  For a positive step `g` the fuel
`(⌊(hi - lo)/g⌋ + 1).toNat` is enough for the loop to run to completion (proved
below); for `g ≤ 0` the JavaScript loop would not terminate, which is
unreachable because the selected spacing is always positive. -/
def ticksFrom (g lo hi : ℚ) : List ℚ :=
  if 0 < g then ticksFromAux g hi ((⌊(hi - lo) / g⌋ + 1).toNat) lo else []

/-- The spacing step function of `generateTicks`. -/
def selectGridSize (w h : ℚ) : ℚ :=
  let range := max w h
  if range ≤ 5 then 1/2
  else if range ≤ 10 then 1
  else if range ≤ 25 then 2
  else if range ≤ 50 then 5
  else 10

/-- The handler `updateViewBoxStr`. -/
def updateViewBoxStr (s : AppState) : AppState :=
  { s with viewBox := ⟨s.camX, s.camY, s.camWidth, s.camHeight⟩ }

/-- The handler `generateTicks`. -/
def generateTicks (s : AppState) : AppState :=
  let g := selectGridSize s.camWidth s.camHeight
  let startX : ℚ := (⌊s.camX / g⌋ : ℚ) * g
  let endX := s.camX + s.camWidth
  let startY : ℚ := (⌊s.camY / g⌋ : ℚ) * g
  let endY := s.camY + s.camHeight
  { s with
    gridSize := g
    xTicks := ticksFrom g startX endX
    yTicks := ticksFrom g startY endY }

/-- The projector `calculateLineSegment`.  Returns `none` when a division would produce a
non-finite coordinate (never happens; proved below). -/
def calculateLineSegment (c : Constraint) : Option Segment :=
  let bigMin : ℚ := -1000
  let bigMax : ℚ := 1000
  let tol : ℚ := 1/100000
  if |c.y| < tol then
    (jsDiv c.rhs (jsOr c.x 1)).map fun x => ⟨x, bigMin, x, bigMax⟩
  else if |c.x| < tol then
    (jsDiv c.rhs (jsOr c.y 1)).map fun y => ⟨bigMin, y, bigMax, y⟩
  else
    (jsDiv (c.rhs - c.x * bigMin) c.y).bind fun y1 =>
      (jsDiv (c.rhs - c.x * bigMax) c.y).map fun y2 => ⟨bigMin, y1, bigMax, y2⟩

/-- The projector `calculateObjectiveLine`: writes `objLine` from `this.objective` and the
optimal point.  In the slope branch the divisor `objective.y` is nonzero
(`|objective.y| ≥ tol`), so plain rational division agrees with JavaScript. -/
def calculateObjectiveLine (pt : Point) (s : AppState) : AppState :=
  let bigMin : ℚ := -1000
  let bigMax : ℚ := 1000
  if |s.objective.y| < 1/100000 then
    { s with objLine := ⟨pt.x, bigMin, pt.x, bigMax⟩ }
  else
    let m := -s.objective.x / s.objective.y
    { s with objLine := ⟨bigMin, pt.y + m * (bigMin - pt.x), bigMax, pt.y + m * (bigMax - pt.x)⟩ }

/-- The auto-fitter `autoFit`. -/
def autoFit (data : GraphicSolution) (s : AppState) : AppState :=
  match data.feasible_region with
  | none => s
  | some region =>
    if region.length = 0 then s
    else
      let xs := region.map (·.x)
      let ys := region.map (·.y)
      if xs.any (fun v => !v.isFinite) || ys.any (fun v => !v.isFinite) then s
      else
        let xq := xs.map JsNum.toQ
        let yq := ys.map JsNum.toQ
        let minX := jsMin0 xq
        let maxX := listMax xq
        let minY := jsMin0 yq
        let maxY := listMax yq
        let paddingX := jsOr ((maxX - minX) * (2/10)) 5
        let paddingY := jsOr ((maxY - minY) * (2/10)) 5
        let s1 := { s with camX := minX - paddingX, camY := minY - paddingY }
        let s2 := { s1 with
          camWidth := (maxX + paddingX) - s1.camX
          camHeight := (maxY + paddingY) - s1.camY }
        let s3 := generateTicks (updateViewBoxStr s2)
        let s4 := { s3 with renderLines := data.constraints_lines.map calculateLineSegment }
        match data.optimal_solution with
        | some opt => calculateObjectiveLine opt.point s4
        | none => s4

/-- The handler `clearAll` (string/example fields omitted; note the source does not reset
`currentStep`/`totalSteps` here). -/
def clearAll (s : AppState) : AppState :=
  let s1 := { s with
    isStepMode := false
    objective := ⟨0, 0⟩
    constraints := []
    solution := none
    renderLines := []
    objLine := ⟨0, 0, 0, 0⟩
    camX := -1, camY := -1, camWidth := 12, camHeight := 12 }
  generateTicks (updateViewBoxStr s1)

/-- The handler `startStepMode` (the narrative-string builder `updateStep` writes only
omitted presentation fields). -/
def startStepMode (s : AppState) : AppState :=
  match s.solution with
  | none => s
  | some sol =>
    autoFit sol { s with
      isStepMode := true
      currentStep := 1
      totalSteps := s.constraints.length + 3 }

/-- The handler `exitStepMode`. -/
def exitStepMode (s : AppState) : AppState :=
  { s with isStepMode := false, currentStep := 0 }

/-- The handler `nextStep`. -/
def nextStep (s : AppState) : AppState :=
  if s.currentStep < s.totalSteps then { s with currentStep := s.currentStep + 1 }
  else exitStepMode s

/-- The handler `prevStep`. -/
def prevStep (s : AppState) : AppState :=
  if 1 < s.currentStep then { s with currentStep := s.currentStep - 1 } else s

/-- The zoom handler `onWheel`. -/
def onWheel (deltaY : ℚ) (s : AppState) : AppState :=
  let zoomFactor : ℚ := 11/10
  let direction : ℤ := if deltaY > 0 then 1 else -1
  let s1 :=
    if direction > 0 then
      { s with camWidth := s.camWidth * zoomFactor, camHeight := s.camHeight * zoomFactor }
    else
      { s with camWidth := s.camWidth / zoomFactor, camHeight := s.camHeight / zoomFactor }
  generateTicks (updateViewBoxStr s1)

/-- The drag handler `onMouseDown`. -/
def onMouseDown (mx my : ℚ) (s : AppState) : AppState :=
  { s with isDragging := true, lastMouseX := mx, lastMouseY := my }

/-- The drag handler `onMouseMove`. -/
def onMouseMove (mx my : ℚ) (s : AppState) : AppState :=
  if !s.isDragging then s
  else
    let sensitivity := s.camWidth / 800
    let dx := (mx - s.lastMouseX) * sensitivity
    let dy := (my - s.lastMouseY) * sensitivity
    generateTicks (updateViewBoxStr { s with
      camX := s.camX - dx
      camY := s.camY + dy
      lastMouseX := mx
      lastMouseY := my })

/-- The drag handler `onMouseUp`. -/
def onMouseUp (s : AppState) : AppState :=
  { s with isDragging := false }

/-- The handler `resetCamera`.  Note: the no-solution branch updates the viewBox but does
not call `generateTicks`. -/
def resetCamera (s : AppState) : AppState :=
  match s.solution with
  | some sol => autoFit sol s
  | none =>
    updateViewBoxStr { s with camX := -1, camY := -1, camWidth := 12, camHeight := 12 }

/-- The body of the solve-pipeline subscriber: `loading` is reset, a non-null
response replaces the solution wholesale and is auto-fitted, a null response
(empty constraint set, or a backend error swallowed by `catchError`) clears the
solution. -/
def handleSolveResponse (res : Option GraphicSolution) (s : AppState) : AppState :=
  let s1 := { s with loading := false }
  match res with
  | some r => autoFit r { s1 with solution := some r }
  | none => { s1 with solution := none }

/-- The `catchError` stage of the pipeline: an error from the external solve
call is logged to the console error sink and converted to a null response.
Returns the response handed to the subscriber and whether the sink was
notified. -/
def solveOutcomeToRes : Except Unit GraphicSolution → Option GraphicSolution × Bool
  | .error _ => (none, true)
  | .ok r => (some r, false)

/-- The user-facing operations that mutate the component state. -/
inductive Op where
  | wheel (deltaY : ℚ)
  | mouseDown (mx my : ℚ)
  | mouseMove (mx my : ℚ)
  | mouseUp
  | reset
  | clear
  | solveResponse (res : Option GraphicSolution)
  | stepStart
  | stepNext
  | stepPrev
  | stepExit

/-- Dispatch one operation. -/
def applyOp : Op → AppState → AppState
  | .wheel d => onWheel d
  | .mouseDown mx my => onMouseDown mx my
  | .mouseMove mx my => onMouseMove mx my
  | .mouseUp => onMouseUp
  | .reset => resetCamera
  | .clear => clearAll
  | .solveResponse res => handleSolveResponse res
  | .stepStart => startStepMode
  | .stepNext => nextStep
  | .stepPrev => prevStep
  | .stepExit => exitStepMode

/-- Apply a sequence of operations left to right. -/
def applyOps (ops : List Op) (s : AppState) : AppState :=
  ops.foldl (fun t o => applyOp o t) s

/-- The component state as built by the class field initializers. -/
def classInitState : AppState where
  loading := false
  objective := ⟨0, 0⟩
  constraints := []
  solution := none
  isStepMode := false
  currentStep := 0
  totalSteps := 0
  viewBox := ⟨-1, -1, 12, 12⟩
  camX := 0
  camY := 0
  camWidth := 12
  camHeight := 12
  isDragging := false
  lastMouseX := 0
  lastMouseY := 0
  gridSize := 1
  xTicks := []
  yTicks := []
  renderLines := []
  objLine := ⟨0, 0, 0, 0⟩

/-- The state after `ngOnInit` ran `clearAll`. -/
def initialState : AppState := clearAll classInitState

/-- The camera 4-tuple of a state. -/
def camera (s : AppState) : ℚ × ℚ × ℚ × ℚ := (s.camX, s.camY, s.camWidth, s.camHeight)

/-- Embeds `Math.min(...xs)` of a non-empty list (junk 0 on `[]`); used only by the
claim-side bounding-box formulation. -/
def listMin : List ℚ → ℚ
  | [] => 0
  | a :: t => t.foldl min a

/-- Modelled from the spec claim, for comparison with `autoFit`: the camera
4-tuple obtained when BOTH the low and the high bound of the bounding box are
forced to include 0 ("per-axis low and high bounds are the min and max of the
region's coordinates on that axis, each forced to include 0"), with the
claimed padding and origin/extent arithmetic. -/
def claimC2Fit (region : List JsPoint) : ℚ × ℚ × ℚ × ℚ :=
  let xq := (region.map (·.x)).map JsNum.toQ
  let yq := (region.map (·.y)).map JsNum.toQ
  let loX := min 0 (listMin xq)
  let hiX := max 0 (listMax xq)
  let loY := min 0 (listMin yq)
  let hiY := max 0 (listMax yq)
  let padX := if hiX - loX = 0 then (5 : ℚ) else (hiX - loX) * (2/10)
  let padY := if hiY - loY = 0 then (5 : ℚ) else (hiY - loY) * (2/10)
  (loX - padX, loY - padY, (hiX + padX) - (loX - padX), (hiY + padY) - (loY - padY))

/-- What `autoFit` actually does to the camera on a valid region (the amended
form of the bounding-box claim): only the LOW bound of each axis is forced to
include 0, the high bound is the plain maximum of the coordinates. -/
def C2Post (data : GraphicSolution) (s : AppState) (region : List JsPoint) : Prop :=
  let xq := (region.map (·.x)).map JsNum.toQ
  let yq := (region.map (·.y)).map JsNum.toQ
  let loX := jsMin0 xq
  let hiX := listMax xq
  let loY := jsMin0 yq
  let hiY := listMax yq
  let padX := if hiX - loX = 0 then (5 : ℚ) else (hiX - loX) * (2/10)
  let padY := if hiY - loY = 0 then (5 : ℚ) else (hiY - loY) * (2/10)
  (autoFit data s).camX = loX - padX
  ∧ (autoFit data s).camY = loY - padY
  ∧ (autoFit data s).camWidth = (hiX + padX) - (autoFit data s).camX
  ∧ (autoFit data s).camHeight = (hiY + padY) - (autoFit data s).camY
  ∧ loX ≤ 0 ∧ loY ≤ 0 ∧ loX ≤ hiX ∧ loY ≤ hiY
  ∧ (∀ p ∈ region,
      loX ≤ JsNum.toQ p.x ∧ JsNum.toQ p.x ≤ hiX
      ∧ loY ≤ JsNum.toQ p.y ∧ JsNum.toQ p.y ≤ hiY)
  ∧ (loX = 0 ∨ loX ∈ xq) ∧ hiX ∈ xq
  ∧ (loY = 0 ∨ loY ∈ yq) ∧ hiY ∈ yq

/-- The grid claim: spacing is the claimed step function of the camera range;
on each axis the tick list starts at `floor(origin/spacing)·spacing` (which is
at most the origin), consecutive ticks differ by exactly the spacing (hence
strictly increase), every tick is at most the far edge (inclusive), and the
last tick is within one spacing of the far edge. -/
def C6Post (s : AppState) : Prop :=
  let t := generateTicks s
  t.gridSize = (if max s.camWidth s.camHeight ≤ 5 then (1 : ℚ)/2
    else if max s.camWidth s.camHeight ≤ 10 then 1
    else if max s.camWidth s.camHeight ≤ 25 then 2
    else if max s.camWidth s.camHeight ≤ 50 then 5
    else 10)
  ∧ 0 < t.gridSize
  ∧ (∃ a, t.xTicks.head? = some a
      ∧ a = (⌊s.camX / t.gridSize⌋ : ℚ) * t.gridSize ∧ a ≤ s.camX)
  ∧ List.Chain' (fun u v => v = u + t.gridSize) t.xTicks
  ∧ List.Chain' (fun u v => u < v) t.xTicks
  ∧ (∀ v ∈ t.xTicks, v ≤ s.camX + s.camWidth)
  ∧ (∃ b, t.xTicks.getLast? = some b
      ∧ b ≤ s.camX + s.camWidth ∧ s.camX + s.camWidth < b + t.gridSize)
  ∧ (∃ a, t.yTicks.head? = some a
      ∧ a = (⌊s.camY / t.gridSize⌋ : ℚ) * t.gridSize ∧ a ≤ s.camY)
  ∧ List.Chain' (fun u v => v = u + t.gridSize) t.yTicks
  ∧ List.Chain' (fun u v => u < v) t.yTicks
  ∧ (∀ v ∈ t.yTicks, v ≤ s.camY + s.camHeight)
  ∧ (∃ b, t.yTicks.getLast? = some b
      ∧ b ≤ s.camY + s.camHeight ∧ s.camY + s.camHeight < b + t.gridSize)

/-- The constraint set of the built-in carpentry example. -/
def exConstraints : List Constraint :=
  [⟨1, 0, .le, 4⟩, ⟨0, 2, .le, 12⟩, ⟨3, 2, .le, 18⟩]

/-- The solve response of the carpentry example (optimal point (2,6), z = 36). -/
def exSolution : GraphicSolution where
  status := "optimal"
  optimal_solution := some ⟨⟨2, 6⟩, 36⟩
  feasible_region := some
    [⟨.num 0, .num 0⟩, ⟨.num 4, .num 0⟩, ⟨.num 4, .num 3⟩, ⟨.num 2, .num 6⟩, ⟨.num 0, .num 6⟩]
  constraints_lines := exConstraints

/-- A state holding the example solution and its three constraints. -/
def exState : AppState :=
  { classInitState with solution := some exSolution, constraints := exConstraints }

/-- A feasible region lying entirely in the negative quadrant. -/
def negRegion : List JsPoint := [⟨.num (-2), .num (-2)⟩, ⟨.num (-1), .num (-1)⟩]

/-- A solve response whose feasible region is entirely negative. -/
def negSolution : GraphicSolution where
  status := "optimal"
  optimal_solution := none
  feasible_region := some negRegion
  constraints_lines := []

/-- A solve response carrying a NaN coordinate in its feasible region. -/
def nanSolution : GraphicSolution where
  status := "optimal"
  optimal_solution := none
  feasible_region := some [⟨.nan, .num 1⟩]
  constraints_lines := []

/-- The state reached from the initial state by two zoom-in wheel events
(camera range 1200/121 ≈ 9.9, so the stored spacing is 1). -/
def zoomedState : AppState := applyOps [Op.wheel (-1), Op.wheel (-1)] initialState

/-! ## Helper lemmas -/

theorem generateTicks_camX (s : AppState) : (generateTicks s).camX = s.camX := rfl

theorem generateTicks_camY (s : AppState) : (generateTicks s).camY = s.camY := rfl

theorem generateTicks_camWidth (s : AppState) : (generateTicks s).camWidth = s.camWidth := rfl

theorem generateTicks_camHeight (s : AppState) : (generateTicks s).camHeight = s.camHeight := rfl

theorem generateTicks_idem (s : AppState) : generateTicks (generateTicks s) = generateTicks s := rfl

theorem foldl_min_le_seed (l : List ℚ) : ∀ a : ℚ, l.foldl min a ≤ a := by
  induction l with
  | nil => intro a; simp
  | cons x t ih =>
    intro a
    calc (x :: t).foldl min a = t.foldl min (min a x) := by simp [List.foldl_cons]
    _ ≤ min a x := ih (min a x)
    _ ≤ a := min_le_left a x

theorem seed_le_foldl_max (l : List ℚ) : ∀ a : ℚ, a ≤ l.foldl max a := by
  induction l with
  | nil => intro a; simp
  | cons x t ih =>
    intro a
    calc a ≤ max a x := le_max_left a x
    _ ≤ t.foldl max (max a x) := ih (max a x)
    _ = (x :: t).foldl max a := by simp [List.foldl_cons]

theorem foldl_min_le_mem (l : List ℚ) : ∀ a x : ℚ, x ∈ l → l.foldl min a ≤ x := by
  induction l with
  | nil => intro a x hx; simp at hx
  | cons y t ih =>
    intro a x hx
    rcases List.mem_cons.1 hx with h | h
    · subst h
      calc (x :: t).foldl min a = t.foldl min (min a x) := by simp [List.foldl_cons]
      _ ≤ min a x := foldl_min_le_seed t (min a x)
      _ ≤ x := min_le_right a x
    · simpa [List.foldl_cons] using ih (min a y) x h

theorem mem_le_foldl_max (l : List ℚ) : ∀ a x : ℚ, x ∈ l → x ≤ l.foldl max a := by
  induction l with
  | nil => intro a x hx; simp at hx
  | cons y t ih =>
    intro a x hx
    rcases List.mem_cons.1 hx with h | h
    · subst h
      calc x ≤ max a x := le_max_right a x
      _ ≤ t.foldl max (max a x) := seed_le_foldl_max t (max a x)
      _ = (x :: t).foldl max a := by simp [List.foldl_cons]
    · simpa [List.foldl_cons] using ih (max a y) x h

theorem foldl_min_mem (l : List ℚ) : ∀ a : ℚ, l.foldl min a = a ∨ l.foldl min a ∈ l := by
  induction l with
  | nil => intro a; left; rfl
  | cons y t ih =>
    intro a
    rcases ih (min a y) with h | h
    · rcases min_choice a y with hm | hm
      · left
        show t.foldl min (min a y) = a
        rw [h, hm]
      · right
        show t.foldl min (min a y) ∈ y :: t
        rw [h, hm]
        exact List.mem_cons_self y t
    · right
      exact List.mem_cons_of_mem y h

theorem foldl_max_mem (l : List ℚ) : ∀ a : ℚ, l.foldl max a = a ∨ l.foldl max a ∈ l := by
  induction l with
  | nil => intro a; left; rfl
  | cons y t ih =>
    intro a
    rcases ih (max a y) with h | h
    · rcases max_choice a y with hm | hm
      · left
        show t.foldl max (max a y) = a
        rw [h, hm]
      · right
        show t.foldl max (max a y) ∈ y :: t
        rw [h, hm]
        exact List.mem_cons_self y t
    · right
      exact List.mem_cons_of_mem y h

theorem jsMin0_nonpos (l : List ℚ) : jsMin0 l ≤ 0 :=
  foldl_min_le_seed l 0

theorem jsMin0_le_mem (l : List ℚ) (x : ℚ) (hx : x ∈ l) : jsMin0 l ≤ x :=
  foldl_min_le_mem l 0 x hx

theorem mem_le_listMax (l : List ℚ) (x : ℚ) (hx : x ∈ l) : x ≤ listMax l := by
  cases l with
  | nil => simp at hx
  | cons a t =>
    rcases List.mem_cons.1 hx with h | h
    · subst h; exact seed_le_foldl_max t x
    · exact mem_le_foldl_max t a x h

theorem listMax_mem (l : List ℚ) (h : l ≠ []) : listMax l ∈ l := by
  cases l with
  | nil => exact absurd rfl h
  | cons a t =>
    rcases foldl_max_mem t a with hm | hm
    · rw [listMax, hm]; exact List.mem_cons_self a t
    · exact List.mem_cons_of_mem a hm

theorem jsMin0_le_listMax (l : List ℚ) (h : l ≠ []) : jsMin0 l ≤ listMax l := by
  cases l with
  | nil => exact absurd rfl h
  | cons a t =>
    exact le_trans (jsMin0_le_mem (a :: t) a (List.mem_cons_self a t))
      (mem_le_listMax (a :: t) a (List.mem_cons_self a t))

/-- The padding expression of `autoFit` is positive for a nonnegative span. -/
theorem pad_pos (span : ℚ) (h : 0 ≤ span) : 0 < jsOr (span * (2/10)) 5 := by
  unfold jsOr
  split
  · norm_num
  · rename_i hz
    have hs : span ≠ 0 := by
      intro h0; exact hz (by rw [h0]; ring)
    have : 0 < span := lt_of_le_of_ne h (Ne.symm hs)
    positivity

/-- The padding expression of `autoFit`, rewritten as the spec states it. -/
theorem pad_eq_ite (span : ℚ) : jsOr (span * (2/10)) 5 = if span = 0 then 5 else span * (2/10) := by
  unfold jsOr
  by_cases h : span = 0
  · simp [h]
  · have hz : span * (2/10) ≠ 0 := mul_ne_zero h (by norm_num)
    simp [hz, h]

theorem ticksFromAux_nil (g hi lo : ℚ) (h : ¬ lo ≤ hi) : ∀ n, ticksFromAux g hi n lo = [] := by
  intro n
  cases n with
  | zero => rfl
  | succ n => simp [ticksFromAux, h]

theorem ticksFromAux_head? (g hi : ℚ) :
    ∀ n lo y, (ticksFromAux g hi n lo).head? = some y → y = lo := by
  intro n lo y h
  cases n with
  | zero => simp [ticksFromAux] at h
  | succ n =>
    by_cases hlo : lo ≤ hi
    · simp [ticksFromAux, hlo] at h
      exact h.symm
    · simp [ticksFromAux, hlo] at h

theorem ticksFromAux_mem_le (g hi : ℚ) :
    ∀ n lo, ∀ t ∈ ticksFromAux g hi n lo, t ≤ hi := by
  intro n
  induction n with
  | zero => intro lo t ht; simp [ticksFromAux] at ht
  | succ n ih =>
    intro lo t ht
    by_cases hlo : lo ≤ hi
    · simp [ticksFromAux, hlo] at ht
      rcases ht with h | h
      · exact h ▸ hlo
      · exact ih (lo + g) t h
    · simp [ticksFromAux, hlo] at ht

theorem ticksFromAux_chain (g hi : ℚ) :
    ∀ n lo, List.Chain' (fun a b => b = a + g) (ticksFromAux g hi n lo) := by
  intro n
  induction n with
  | zero => intro lo; simp [ticksFromAux]
  | succ n ih =>
    intro lo
    by_cases hlo : lo ≤ hi
    · simp only [ticksFromAux, if_pos hlo]
      rw [List.chain'_cons']
      constructor
      · intro y hy
        have := ticksFromAux_head? g hi n (lo + g) y hy
        exact this
      · exact ih (lo + g)
    · simp [ticksFromAux, hlo]

theorem ticksFromAux_head?_of (g hi : ℚ) (n : ℕ) (lo : ℚ) (hn : 0 < n) (hlo : lo ≤ hi) :
    (ticksFromAux g hi n lo).head? = some lo := by
  cases n with
  | zero => omega
  | succ m => simp [ticksFromAux, hlo]

theorem ticksFromAux_getLast (g hi : ℚ) (hg : 0 < g) :
    ∀ (n : ℕ) (lo : ℚ), lo ≤ hi → (hi - lo) / g < (n : ℚ) →
      ∃ t, (ticksFromAux g hi n lo).getLast? = some t ∧ t ≤ hi ∧ hi < t + g := by
  intro n
  induction n with
  | zero =>
    intro lo hlo hn
    exfalso
    have : (0 : ℚ) ≤ (hi - lo) / g := div_nonneg (by linarith) hg.le
    simp at hn
    linarith
  | succ n ih =>
    intro lo hlo hn
    simp only [ticksFromAux, if_pos hlo]
    by_cases hlg : lo + g ≤ hi
    · have hn' : (hi - (lo + g)) / g < (n : ℚ) := by
        have hgne : g ≠ 0 := hg.ne'
        have : (hi - (lo + g)) / g = (hi - lo) / g - 1 := by
          field_simp
          ring
        rw [this]
        push_cast at hn ⊢
        linarith
      obtain ⟨t, hlast, hle, hgt⟩ := ih (lo + g) hlg hn'
      refine ⟨t, ?_, hle, hgt⟩
      have hne : ticksFromAux g hi n (lo + g) ≠ [] := by
        intro hnil
        rw [hnil] at hlast
        simp at hlast
      rw [List.getLast?_cons, hlast]
      simp
    · have hnil := ticksFromAux_nil g hi (lo + g) hlg n
      rw [hnil]
      exact ⟨lo, rfl, hlo, by linarith [not_le.1 hlg]⟩

/-- Full characterization of the tick loop for a positive spacing and a
non-degenerate range: first element is the start value, consecutive ticks
differ by exactly the spacing, every tick is at most the (inclusive) upper
bound, and the loop stops at the first value past the bound. -/
theorem ticksFrom_spec (g lo hi : ℚ) (hg : 0 < g) (hlh : lo ≤ hi) :
    (ticksFrom g lo hi).head? = some lo
    ∧ List.Chain' (fun a b => b = a + g) (ticksFrom g lo hi)
    ∧ (∀ t ∈ ticksFrom g lo hi, t ≤ hi)
    ∧ ∃ t, (ticksFrom g lo hi).getLast? = some t ∧ t ≤ hi ∧ hi < t + g := by
  have hq : (0 : ℚ) ≤ (hi - lo) / g := div_nonneg (by linarith) hg.le
  have hfl : (0 : ℤ) ≤ ⌊(hi - lo) / g⌋ := Int.floor_nonneg.2 hq
  set n : ℕ := (⌊(hi - lo) / g⌋ + 1).toNat with hn
  have h1 : ((⌊(hi - lo) / g⌋ + 1).toNat : ℤ) = ⌊(hi - lo) / g⌋ + 1 :=
    Int.toNat_of_nonneg (by omega)
  have hcast : (n : ℚ) = (⌊(hi - lo) / g⌋ : ℚ) + 1 := by
    rw [hn]
    exact_mod_cast congrArg (Int.cast : ℤ → ℚ) h1
  have hlt : (hi - lo) / g < (n : ℚ) := by
    rw [hcast]
    exact Int.lt_floor_add_one _
  have hpos : 0 < n := by
    rw [hn]
    omega
  have hfrom : ticksFrom g lo hi = ticksFromAux g hi n lo := by
    unfold ticksFrom
    rw [if_pos hg]
  refine ⟨?_, ?_, ?_, ?_⟩
  · rw [hfrom]
    exact ticksFromAux_head?_of g hi n lo hpos hlh
  · rw [hfrom]; exact ticksFromAux_chain g hi n lo
  · rw [hfrom]; exact ticksFromAux_mem_le g hi n lo
  · rw [hfrom]; exact ticksFromAux_getLast g hi hg n lo hlh hlt

theorem selectGridSize_pos (w h : ℚ) : 0 < selectGridSize w h := by
  simp only [selectGridSize]
  split_ifs <;> norm_num

theorem selectGridSize_mem (w h : ℚ) :
    selectGridSize w h ∈ ({1/2, 1, 2, 5, 10} : Set ℚ) := by
  simp only [selectGridSize]
  split_ifs <;> simp

/-- The start value of each tick loop is at most the camera origin. -/
theorem floor_mul_le (x g : ℚ) (hg : 0 < g) : (⌊x / g⌋ : ℚ) * g ≤ x := by
  have h1 : (⌊x / g⌋ : ℚ) ≤ x / g := Int.floor_le _
  calc (⌊x / g⌋ : ℚ) * g ≤ (x / g) * g := mul_le_mul_of_nonneg_right h1 hg.le
  _ = x := div_mul_cancel₀ x hg.ne'

theorem calcObj_camX (pt : Point) (s : AppState) : (calculateObjectiveLine pt s).camX = s.camX := by
  unfold calculateObjectiveLine; split <;> rfl

theorem calcObj_camY (pt : Point) (s : AppState) : (calculateObjectiveLine pt s).camY = s.camY := by
  unfold calculateObjectiveLine; split <;> rfl

theorem calcObj_camWidth (pt : Point) (s : AppState) :
    (calculateObjectiveLine pt s).camWidth = s.camWidth := by
  unfold calculateObjectiveLine; split <;> rfl

theorem calcObj_camHeight (pt : Point) (s : AppState) :
    (calculateObjectiveLine pt s).camHeight = s.camHeight := by
  unfold calculateObjectiveLine; split <;> rfl

theorem calcObj_solution (pt : Point) (s : AppState) :
    (calculateObjectiveLine pt s).solution = s.solution := by
  unfold calculateObjectiveLine; split <;> rfl

theorem calcObj_constraints (pt : Point) (s : AppState) :
    (calculateObjectiveLine pt s).constraints = s.constraints := by
  unfold calculateObjectiveLine; split <;> rfl

theorem calcObj_isStepMode (pt : Point) (s : AppState) :
    (calculateObjectiveLine pt s).isStepMode = s.isStepMode := by
  unfold calculateObjectiveLine; split <;> rfl

theorem calcObj_currentStep (pt : Point) (s : AppState) :
    (calculateObjectiveLine pt s).currentStep = s.currentStep := by
  unfold calculateObjectiveLine; split <;> rfl

theorem calcObj_totalSteps (pt : Point) (s : AppState) :
    (calculateObjectiveLine pt s).totalSteps = s.totalSteps := by
  unfold calculateObjectiveLine; split <;> rfl

/-- The function `autoFit` never touches the step-machine fields, the stored solution, the
constraint list or the objective. -/
theorem autoFit_preserves (d : GraphicSolution) (s : AppState) :
    (autoFit d s).solution = s.solution
    ∧ (autoFit d s).constraints = s.constraints
    ∧ (autoFit d s).objective = s.objective
    ∧ (autoFit d s).isStepMode = s.isStepMode
    ∧ (autoFit d s).currentStep = s.currentStep
    ∧ (autoFit d s).totalSteps = s.totalSteps := by
  unfold autoFit calculateObjectiveLine
  dsimp only
  repeat' split
  all_goals exact ⟨rfl, rfl, rfl, rfl, rfl, rfl⟩

/-- The function `autoFit` either leaves the state untouched or leaves a grid that is a
fixpoint of `generateTicks`. -/
theorem autoFit_grid (d : GraphicSolution) (s : AppState) :
    autoFit d s = s ∨ generateTicks (autoFit d s) = autoFit d s := by
  unfold autoFit calculateObjectiveLine
  dsimp only
  repeat' split
  all_goals first
    | (left; rfl)
    | (right; rfl)

/-- The camera equations of `autoFit` in the non-degenerate case. -/
theorem autoFit_main (d : GraphicSolution) (s : AppState) (region : List JsPoint)
    (hfr : d.feasible_region = some region) (hne : region ≠ [])
    (hgx : ((region.map (·.x)).any fun v => !v.isFinite) = false)
    (hgy : ((region.map (·.y)).any fun v => !v.isFinite) = false) :
    (autoFit d s).camX
      = jsMin0 ((region.map (·.x)).map JsNum.toQ)
        - jsOr ((listMax ((region.map (·.x)).map JsNum.toQ)
            - jsMin0 ((region.map (·.x)).map JsNum.toQ)) * (2/10)) 5
    ∧ (autoFit d s).camY
      = jsMin0 ((region.map (·.y)).map JsNum.toQ)
        - jsOr ((listMax ((region.map (·.y)).map JsNum.toQ)
            - jsMin0 ((region.map (·.y)).map JsNum.toQ)) * (2/10)) 5
    ∧ (autoFit d s).camWidth
      = (listMax ((region.map (·.x)).map JsNum.toQ)
          + jsOr ((listMax ((region.map (·.x)).map JsNum.toQ)
              - jsMin0 ((region.map (·.x)).map JsNum.toQ)) * (2/10)) 5)
        - (autoFit d s).camX
    ∧ (autoFit d s).camHeight
      = (listMax ((region.map (·.y)).map JsNum.toQ)
          + jsOr ((listMax ((region.map (·.y)).map JsNum.toQ)
              - jsMin0 ((region.map (·.y)).map JsNum.toQ)) * (2/10)) 5)
        - (autoFit d s).camY := by
  have hlen : ¬ region.length = 0 := by
    simpa [List.length_eq_zero] using hne
  cases hopt : d.optimal_solution with
  | some opt =>
    simp [autoFit, hfr, hopt, hlen, hgx, hgy, calcObj_camX, calcObj_camY,
      calcObj_camWidth, calcObj_camHeight, generateTicks, updateViewBoxStr]
  | none =>
    simp [autoFit, hfr, hopt, hlen, hgx, hgy, generateTicks, updateViewBoxStr]

/-- The function `autoFit` keeps the camera extent strictly positive. -/
theorem autoFit_pos (d : GraphicSolution) (s : AppState)
    (hw : 0 < s.camWidth) (hh : 0 < s.camHeight) :
    0 < (autoFit d s).camWidth ∧ 0 < (autoFit d s).camHeight := by
  cases hfr : d.feasible_region with
  | none =>
    unfold autoFit
    rw [hfr]
    exact ⟨hw, hh⟩
  | some region =>
    by_cases hlen : region.length = 0
    · unfold autoFit
      rw [hfr]
      try dsimp only
      rw [if_pos hlen]
      exact ⟨hw, hh⟩
    · by_cases hg :
        (((region.map (·.x)).any fun v => !v.isFinite)
          || ((region.map (·.y)).any fun v => !v.isFinite)) = true
      · unfold autoFit
        rw [hfr]
        try dsimp only
        rw [if_neg hlen, if_pos hg]
        exact ⟨hw, hh⟩
      · have hne : region ≠ [] := by
          simpa [List.length_eq_zero] using hlen
        rw [Bool.or_eq_true] at hg
        push_neg at hg
        have hgx : ((region.map (·.x)).any fun v => !v.isFinite) = false :=
          Bool.eq_false_iff.2 hg.1
        have hgy : ((region.map (·.y)).any fun v => !v.isFinite) = false :=
          Bool.eq_false_iff.2 hg.2
        obtain ⟨hx, hy, hwid, hhei⟩ := autoFit_main d s region hfr hne hgx hgy
        have hxne : ((region.map (·.x)).map JsNum.toQ) ≠ [] := by
          simp [hne]
        have hyne : ((region.map (·.y)).map JsNum.toQ) ≠ [] := by
          simp [hne]
        have hmx := jsMin0_le_listMax _ hxne
        have hmy := jsMin0_le_listMax _ hyne
        have hpx := pad_pos (listMax ((region.map (·.x)).map JsNum.toQ)
          - jsMin0 ((region.map (·.x)).map JsNum.toQ)) (by linarith)
        have hpy := pad_pos (listMax ((region.map (·.y)).map JsNum.toQ)
          - jsMin0 ((region.map (·.y)).map JsNum.toQ)) (by linarith)
        constructor
        · rw [hwid, hx]; linarith
        · rw [hhei, hy]; linarith

/-- Iterating `nextStep` while the counter stays within `totalSteps` just adds
to the counter. -/
theorem nextStep_iterate (k : ℕ) :
    ∀ s : AppState, s.currentStep + k ≤ s.totalSteps →
      (nextStep^[k] s).currentStep = s.currentStep + k
      ∧ (nextStep^[k] s).totalSteps = s.totalSteps
      ∧ (nextStep^[k] s).isStepMode = s.isStepMode := by
  induction k with
  | zero => intro s h; exact ⟨rfl, rfl, rfl⟩
  | succ k ih =>
    intro s h
    rw [Function.iterate_succ_apply]
    have hlt : s.currentStep < s.totalSteps := by omega
    have hns : nextStep s = { s with currentStep := s.currentStep + 1 } := by
      unfold nextStep
      rw [if_pos hlt]
    rw [hns]
    obtain ⟨h1, h2, h3⟩ := ih { s with currentStep := s.currentStep + 1 } (by
      show s.currentStep + 1 + k ≤ s.totalSteps
      omega)
    refine ⟨?_, h2, h3⟩
    rw [h1]
    show s.currentStep + 1 + k = s.currentStep + (k + 1)
    omega

/-- After exactly `totalSteps` calls to `nextStep` from counter 1, the step
machine is inactive. -/
theorem nextStep_exhaust (s : AppState) (h1 : s.currentStep = 1) (h2 : 1 ≤ s.totalSteps) :
    (nextStep^[s.totalSteps] s).currentStep = 0
    ∧ (nextStep^[s.totalSteps] s).isStepMode = false := by
  obtain ⟨m, hm⟩ : ∃ m, s.totalSteps = m + 1 := ⟨s.totalSteps - 1, by omega⟩
  rw [hm, Function.iterate_succ_apply']
  obtain ⟨hc, ht, _⟩ := nextStep_iterate m s (by omega)
  set X := nextStep^[m] s with hX
  have hnot : ¬ X.currentStep < X.totalSteps := by
    rw [hc, ht, h1, hm]
    omega
  unfold nextStep
  rw [if_neg hnot]
  exact ⟨rfl, rfl⟩

/-- The subscriber's failure path: `loading` is reset, the stored solution is
cleared, everything else is untouched. -/
theorem handleFailure (s : AppState) :
    handleSolveResponse none s = { s with loading := false, solution := none } := rfl

/-- Every operation preserves strict positivity of the camera extent. -/
theorem applyOp_pos (o : Op) (s : AppState) (hw : 0 < s.camWidth) (hh : 0 < s.camHeight) :
    0 < (applyOp o s).camWidth ∧ 0 < (applyOp o s).camHeight := by
  cases o with
  | wheel d =>
    show 0 < (onWheel d s).camWidth ∧ 0 < (onWheel d s).camHeight
    unfold onWheel
    dsimp only
    split
    · exact ⟨mul_pos hw (by norm_num), mul_pos hh (by norm_num)⟩
    · exact ⟨div_pos hw (by norm_num), div_pos hh (by norm_num)⟩
  | mouseDown mx my => exact ⟨hw, hh⟩
  | mouseMove mx my =>
    show 0 < (onMouseMove mx my s).camWidth ∧ 0 < (onMouseMove mx my s).camHeight
    unfold onMouseMove
    split
    · exact ⟨hw, hh⟩
    · exact ⟨hw, hh⟩
  | mouseUp => exact ⟨hw, hh⟩
  | reset =>
    show 0 < (resetCamera s).camWidth ∧ 0 < (resetCamera s).camHeight
    unfold resetCamera
    cases hsol : s.solution with
    | some sol => exact autoFit_pos sol s hw hh
    | none => exact ⟨by show (0:ℚ) < 12; norm_num, by show (0:ℚ) < 12; norm_num⟩
  | clear =>
    show 0 < (clearAll s).camWidth ∧ 0 < (clearAll s).camHeight
    exact ⟨by show (0:ℚ) < 12; norm_num, by show (0:ℚ) < 12; norm_num⟩
  | solveResponse res =>
    show 0 < (handleSolveResponse res s).camWidth ∧ 0 < (handleSolveResponse res s).camHeight
    cases res with
    | some r => exact autoFit_pos r _ hw hh
    | none => exact ⟨hw, hh⟩
  | stepStart =>
    show 0 < (startStepMode s).camWidth ∧ 0 < (startStepMode s).camHeight
    unfold startStepMode
    cases hsol : s.solution with
    | none => exact ⟨hw, hh⟩
    | some sol => exact autoFit_pos sol _ hw hh
  | stepNext =>
    show 0 < (nextStep s).camWidth ∧ 0 < (nextStep s).camHeight
    unfold nextStep
    split
    · exact ⟨hw, hh⟩
    · exact ⟨hw, hh⟩
  | stepPrev =>
    show 0 < (prevStep s).camWidth ∧ 0 < (prevStep s).camHeight
    unfold prevStep
    split
    · exact ⟨hw, hh⟩
    · exact ⟨hw, hh⟩
  | stepExit => exact ⟨hw, hh⟩

/-! ## Claim theorems -/

/-- C1 (counterexample): contrary to the claim, a solver failure does NOT
retain the previously stored Solution: starting from a state that holds the
example solution, the subscriber's failure path leaves the solution cleared. -/
theorem c1_failureClearsSolution :
    exState.solution = some exSolution
    ∧ (handleSolveResponse none exState).solution ≠ exState.solution :=
  ⟨rfl, fun h => Option.noConfusion h⟩

/-- C1 (amended): on a solver failure the error is reported to the console
error sink and the stored Solution is cleared (set to null); apart from the
`loading` flag every other field — camera, viewBox, grid, constraint segments
and objective segment included — is left unchanged. -/
theorem c1_failureRetainsGeometry (s : AppState) :
    (solveOutcomeToRes (Except.error ())).2 = true
    ∧ handleSolveResponse (solveOutcomeToRes (Except.error ())).1 s
      = { s with loading := false, solution := none } :=
  ⟨rfl, rfl⟩

/-- C7: `calculateLineSegment` never divides by zero — every divisor it uses
is nonzero, so the returned segment exists with all four coordinates finite —
and for the fully degenerate constraint (both coefficients zero) the
`|| 1` guard substitutes divisor 1, yielding the vertical segment at
x = rhs. -/
theorem c7_clipLineNoDivZero (c : Constraint) :
    (calculateLineSegment c).isSome = true
    ∧ calculateLineSegment { c with x := 0, y := 0 }
      = some ⟨c.rhs, -1000, c.rhs, 1000⟩ := by
  constructor
  · unfold calculateLineSegment
    dsimp only
    split
    · have hx : jsOr c.x 1 ≠ 0 := by
        unfold jsOr
        split
        · norm_num
        · assumption
      rw [jsDiv, if_neg hx]
      rfl
    · rename_i hy
      have hyne : c.y ≠ 0 := by
        intro h0
        apply hy
        rw [h0]
        norm_num
      split
      · have hyor : jsOr c.y 1 ≠ 0 := by
          unfold jsOr
          split
          · norm_num
          · assumption
        rw [jsDiv, if_neg hyor]
        rfl
      · rw [jsDiv, if_neg hyne, jsDiv, if_neg hyne]
        rfl
  · norm_num [calculateLineSegment, jsDiv, jsOr]

/-- C8: the objective iso-line always passes through the supplied optimal
point (the point is collinear with the two endpoints); when
`|objective.y| < 1e-5` it is the vertical segment at x = point.x spanning
[-1000, 1000], otherwise the endpoints are at x = -1000 and x = 1000 in
point-slope form with slope `-objective.x / objective.y`. -/
theorem c8_objectiveThroughPoint (s : AppState) (pt : Point) :
    ((calculateObjectiveLine pt s).objLine.x2 - (calculateObjectiveLine pt s).objLine.x1)
        * (pt.y - (calculateObjectiveLine pt s).objLine.y1)
      = ((calculateObjectiveLine pt s).objLine.y2 - (calculateObjectiveLine pt s).objLine.y1)
        * (pt.x - (calculateObjectiveLine pt s).objLine.x1)
    ∧ (if |s.objective.y| < 1/100000 then
        (calculateObjectiveLine pt s).objLine = ⟨pt.x, -1000, pt.x, 1000⟩
      else
        (calculateObjectiveLine pt s).objLine.x1 = -1000
        ∧ (calculateObjectiveLine pt s).objLine.x2 = 1000
        ∧ (calculateObjectiveLine pt s).objLine.y1
          = pt.y + (-s.objective.x / s.objective.y) * (-1000 - pt.x)
        ∧ (calculateObjectiveLine pt s).objLine.y2
          = pt.y + (-s.objective.x / s.objective.y) * (1000 - pt.x)) := by
  unfold calculateObjectiveLine
  dsimp only
  by_cases h : |s.objective.y| < 1/100000
  · simp only [if_pos h]
    refine ⟨?_, ?_⟩
    · dsimp only
      ring
    · simp
  · simp only [if_neg h]
    refine ⟨?_, ?_⟩
    · dsimp only
      ring
    · simp

/-- C9: `autoFit` is a no-op — the whole state, camera, viewBox, grid and
segments included, is returned unchanged — when the feasible region is absent,
empty, or contains a non-finite coordinate. -/
theorem c9_fitNoopOnDegenerate (data : GraphicSolution) (s : AppState)
    (h : data.feasible_region = none
      ∨ data.feasible_region = some []
      ∨ ∃ region, data.feasible_region = some region
          ∧ ∃ p ∈ region, (p.x.isFinite = false ∨ p.y.isFinite = false)) :
    autoFit data s = s := by
  rcases h with h | h | ⟨region, hfr, p, hp, hfin⟩
  · simp [autoFit, h]
  · simp [autoFit, h]
  · have hne : region ≠ [] := List.ne_nil_of_mem hp
    have hlen : region.length ≠ 0 := by
      simpa [List.length_eq_zero] using hne
    have hguard : (((region.map (·.x)).any fun v => !v.isFinite)
        || ((region.map (·.y)).any fun v => !v.isFinite)) = true := by
      rw [Bool.or_eq_true]
      rcases hfin with hfx | hfy
      · left
        rw [List.any_eq_true]
        exact ⟨p.x, List.mem_map_of_mem _ hp, by rw [hfx]; rfl⟩
      · right
        rw [List.any_eq_true]
        exact ⟨p.y, List.mem_map_of_mem _ hp, by rw [hfy]; rfl⟩
    simp [autoFit, hfr, hlen, hguard]

/-- C9 witness: a concrete NaN-carrying response leaves a concrete state
untouched. -/
theorem c9_fitNoopOnDegenerate_witness :
    JsNum.isFinite .nan = false ∧ autoFit nanSolution classInitState = classInitState :=
  ⟨rfl, c9_fitNoopOnDegenerate nanSolution classInitState
    (Or.inr (Or.inr ⟨[⟨.nan, .num 1⟩], rfl, ⟨.nan, .num 1⟩, List.mem_singleton_self _,
      Or.inl rfl⟩))⟩

/-- C10: the tick-enumeration loops of the grid planner terminate for every
camera: the selected spacing is one of {0.5, 1, 2, 5, 10}, hence strictly
positive, so on each axis finitely many steps of the loop counter pass the
(finite) upper bound. -/
theorem c10_tickLoopsTerminate (s : AppState) :
    0 < (generateTicks s).gridSize
    ∧ (generateTicks s).gridSize ∈ ({1/2, 1, 2, 5, 10} : Set ℚ)
    ∧ (∃ n : ℕ, s.camX + s.camWidth
        < (⌊s.camX / (generateTicks s).gridSize⌋ : ℚ) * (generateTicks s).gridSize
          + n * (generateTicks s).gridSize)
    ∧ (∃ n : ℕ, s.camY + s.camHeight
        < (⌊s.camY / (generateTicks s).gridSize⌋ : ℚ) * (generateTicks s).gridSize
          + n * (generateTicks s).gridSize) := by
  have hgs : (generateTicks s).gridSize = selectGridSize s.camWidth s.camHeight := rfl
  have hg : 0 < (generateTicks s).gridSize := by
    rw [hgs]
    exact selectGridSize_pos _ _
  refine ⟨hg, by rw [hgs]; exact selectGridSize_mem _ _, ?_, ?_⟩
  · set g := (generateTicks s).gridSize with hgdef
    set lo : ℚ := (⌊s.camX / g⌋ : ℚ) * g with hlo
    obtain ⟨n, hn⟩ := exists_nat_gt ((s.camX + s.camWidth - lo) / g)
    refine ⟨n, ?_⟩
    have := (div_lt_iff₀ hg).1 hn
    linarith
  · set g := (generateTicks s).gridSize with hgdef
    set lo : ℚ := (⌊s.camY / g⌋ : ℚ) * g with hlo
    obtain ⟨n, hn⟩ := exists_nat_gt ((s.camY + s.camHeight - lo) / g)
    refine ⟨n, ?_⟩
    have := (div_lt_iff₀ hg).1 hn
    linarith

/-- C4: the step narrator. Start is a no-op without a solution and otherwise
activates with counter 1 and total = #constraints + 3; Next increments below
the total and deactivates (counter 0, inactive) at the total instead of
erroring; Prev decrements above 1, is a no-op at 1, and never drives the
counter below 1; and `total` Next calls from a fresh start deactivate the
machine. -/
theorem c4_stepNarrator (s : AppState) :
    (s.solution = none → startStepMode s = s)
    ∧ (s.solution.isSome = true →
        (startStepMode s).isStepMode = true
        ∧ (startStepMode s).currentStep = 1
        ∧ (startStepMode s).totalSteps = s.constraints.length + 3)
    ∧ (s.currentStep < s.totalSteps →
        nextStep s = { s with currentStep := s.currentStep + 1 })
    ∧ (s.totalSteps ≤ s.currentStep →
        (nextStep s).currentStep = 0 ∧ (nextStep s).isStepMode = false)
    ∧ (1 < s.currentStep → prevStep s = { s with currentStep := s.currentStep - 1 })
    ∧ (s.currentStep ≤ 1 → prevStep s = s)
    ∧ (1 ≤ s.currentStep → 1 ≤ (prevStep s).currentStep)
    ∧ (s.solution.isSome = true →
        (nextStep^[(startStepMode s).totalSteps] (startStepMode s)).currentStep = 0
        ∧ (nextStep^[(startStepMode s).totalSteps] (startStepMode s)).isStepMode = false) := by
  have hstart : ∀ sol, s.solution = some sol →
      (startStepMode s).isStepMode = true
      ∧ (startStepMode s).currentStep = 1
      ∧ (startStepMode s).totalSteps = s.constraints.length + 3 := by
    intro sol hsol
    have heq : startStepMode s = autoFit sol
        { s with isStepMode := true, currentStep := 1,
                 totalSteps := s.constraints.length + 3 } := by
      unfold startStepMode
      rw [hsol]
    obtain ⟨_, _, _, hm, hc, ht⟩ := autoFit_preserves sol
      { s with isStepMode := true, currentStep := 1, totalSteps := s.constraints.length + 3 }
    rw [heq, hm, hc, ht]
    exact ⟨rfl, rfl, rfl⟩
  refine ⟨?_, ?_, ?_, ?_, ?_, ?_, ?_, ?_⟩
  · intro h
    simp [startStepMode, h]
  · intro h
    obtain ⟨sol, hsol⟩ := Option.isSome_iff_exists.1 h
    exact hstart sol hsol
  · intro h
    unfold nextStep
    rw [if_pos h]
  · intro h
    unfold nextStep
    rw [if_neg (not_lt.2 h)]
    exact ⟨rfl, rfl⟩
  · intro h
    unfold prevStep
    rw [if_pos h]
  · intro h
    unfold prevStep
    rw [if_neg (by omega)]
  · intro h
    unfold prevStep
    split
    · rename_i hgt
      show 1 ≤ s.currentStep - 1
      omega
    · exact h
  · intro h
    obtain ⟨sol, hsol⟩ := Option.isSome_iff_exists.1 h
    obtain ⟨hm, hc, ht⟩ := hstart sol hsol
    exact nextStep_exhaust (startStepMode s) hc (by rw [ht]; omega)

/-- C4 witness: on the carpentry example (3 constraints) the total is 6 and
six Next calls from a fresh start deactivate the machine. -/
theorem c4_stepNarrator_witness :
    (startStepMode exState).totalSteps = 6
    ∧ (nextStep^[6] (startStepMode exState)).currentStep = 0
    ∧ (nextStep^[6] (startStepMode exState)).isStepMode = false := by
  obtain ⟨_, h2, _, _, _, _, _, h8⟩ := c4_stepNarrator exState
  have ht : (startStepMode exState).totalSteps = 6 := by
    rw [(h2 rfl).2.2]
    rfl
  refine ⟨ht, ?_, ?_⟩
  · have hgoal := (h8 rfl).1
    rwa [ht] at hgoal
  · have hgoal := (h8 rfl).2
    rwa [ht] at hgoal

/-- C5: any finite sequence of user operations (zooms in either direction,
drag pans, resets, clears, solve responses including fits, step-mode
operations) from the initial state leaves the camera extent strictly
positive. -/
theorem c5_cameraExtentPositive (ops : List Op) :
    0 < (applyOps ops initialState).camWidth
    ∧ 0 < (applyOps ops initialState).camHeight := by
  suffices h : ∀ (l : List Op) (s : AppState), 0 < s.camWidth → 0 < s.camHeight →
      0 < (applyOps l s).camWidth ∧ 0 < (applyOps l s).camHeight by
    exact h ops initialState (by show (0:ℚ) < 12; norm_num) (by show (0:ℚ) < 12; norm_num)
  intro l
  induction l with
  | nil => intro s hw hh; exact ⟨hw, hh⟩
  | cons o t ih =>
    intro s hw hh
    obtain ⟨hw1, hh1⟩ := applyOp_pos o s hw hh
    exact ih (applyOp o s) hw1 hh1

/-- C6: for a camera with positive extent, the grid planner's spacing is the
claimed step function of `max(width, height)`; on each axis the first tick is
`floor(origin/spacing)·spacing ≤ origin`, consecutive ticks differ by exactly
the spacing (strictly increasing), and every tick is at most the inclusive far
edge, the last one being within one spacing of it. -/
theorem c6_planGrid (s : AppState) (hw : 0 < s.camWidth) (hh : 0 < s.camHeight) :
    C6Post s := by
  have hg : 0 < selectGridSize s.camWidth s.camHeight := selectGridSize_pos _ _
  have hsx := floor_mul_le s.camX _ hg
  have hsy := floor_mul_le s.camY _ hg
  obtain ⟨hxh, hxc, hxm, hxl⟩ := ticksFrom_spec (selectGridSize s.camWidth s.camHeight)
    ((⌊s.camX / selectGridSize s.camWidth s.camHeight⌋ : ℚ)
      * selectGridSize s.camWidth s.camHeight)
    (s.camX + s.camWidth) hg (by linarith)
  obtain ⟨hyh, hyc, hym, hyl⟩ := ticksFrom_spec (selectGridSize s.camWidth s.camHeight)
    ((⌊s.camY / selectGridSize s.camWidth s.camHeight⌋ : ℚ)
      * selectGridSize s.camWidth s.camHeight)
    (s.camY + s.camHeight) hg (by linarith)
  unfold C6Post
  refine ⟨rfl, hg, ⟨_, hxh, rfl, hsx⟩, hxc, ?_, hxm, hxl,
    ⟨_, hyh, rfl, hsy⟩, hyc, ?_, hym, hyl⟩
  · exact hxc.imp (fun a b hab => by rw [hab]; linarith)
  · exact hyc.imp (fun a b hab => by rw [hab]; linarith)

/-- C6 witness: the grid properties hold at the default camera. -/
theorem c6_planGrid_witness :
    (0 : ℚ) < classInitState.camWidth
    ∧ (0 : ℚ) < classInitState.camHeight
    ∧ C6Post classInitState :=
  ⟨by show (0:ℚ) < 12; norm_num, by show (0:ℚ) < 12; norm_num,
    c6_planGrid classInitState (by show (0:ℚ) < 12; norm_num)
      (by show (0:ℚ) < 12; norm_num)⟩

/-- C2 (counterexample): for a feasible region lying entirely in the negative
quadrant, the camera computed by `autoFit` differs from the claim's bounding
box in which the HIGH bound is also forced to include 0: the code does not
force the maximum to include 0. -/
theorem c2_highBoundNotForcedToZero :
    camera (autoFit negSolution classInitState) = (-11/5, -11/5, 7/5, 7/5)
    ∧ claimC2Fit negRegion = (-12/5, -12/5, 14/5, 14/5)
    ∧ camera (autoFit negSolution classInitState) ≠ claimC2Fit negRegion := by
  have hgx : ((negRegion.map (·.x)).any fun v => !v.isFinite) = false := by decide
  have hgy : ((negRegion.map (·.y)).any fun v => !v.isFinite) = false := by decide
  obtain ⟨hcx, hcy, hcw, hch⟩ :=
    autoFit_main negSolution classInitState negRegion rfl (by decide) hgx hgy
  have hxq : ((negRegion.map (·.x)).map JsNum.toQ) = [-2, -1] := by
    simp [negRegion, JsNum.toQ]
  have hyq : ((negRegion.map (·.y)).map JsNum.toQ) = [-2, -1] := by
    simp [negRegion, JsNum.toQ]
  have hmin : jsMin0 [(-2 : ℚ), -1] = -2 := by
    norm_num [jsMin0, min_def]
  have hmax : listMax [(-2 : ℚ), -1] = -1 := by
    norm_num [listMax, max_def]
  have hcam : camera (autoFit negSolution classInitState) = (-11/5, -11/5, 7/5, 7/5) := by
    rw [camera, hcw, hch, hcx, hcy, hxq, hyq, hmin, hmax]
    norm_num [jsOr]
  have hclaim : claimC2Fit negRegion = (-12/5, -12/5, 14/5, 14/5) := by
    norm_num [claimC2Fit, negRegion, listMin, listMax, JsNum.toQ, min_def, max_def]
  refine ⟨hcam, hclaim, ?_⟩
  rw [hcam, hclaim]
  intro h
  have h1 := congrArg Prod.fst h
  norm_num at h1

/-- C2 (amended): on a non-empty all-finite region, `autoFit` frames the
bounding box whose LOW bound per axis is the minimum of the coordinates forced
to include 0 and whose HIGH bound is the plain maximum of the coordinates (not
forced to include 0); padding is 20% of the axis span, or 5 when the span is
zero; the origin is low bound minus padding and the extent is high bound plus
padding minus the padded origin. -/
theorem c2_fitBoundingBox (data : GraphicSolution) (s : AppState) (region : List JsPoint)
    (hfr : data.feasible_region = some region) (hne : region ≠ [])
    (hfin : ∀ p ∈ region, p.x.isFinite = true ∧ p.y.isFinite = true) :
    C2Post data s region := by
  have hgx : ((region.map (·.x)).any fun v => !v.isFinite) = false := by
    rw [List.any_eq_false]
    intro v hv
    obtain ⟨p, hp, rfl⟩ := List.mem_map.1 hv
    simp [(hfin p hp).1]
  have hgy : ((region.map (·.y)).any fun v => !v.isFinite) = false := by
    rw [List.any_eq_false]
    intro v hv
    obtain ⟨p, hp, rfl⟩ := List.mem_map.1 hv
    simp [(hfin p hp).2]
  obtain ⟨hcx, hcy, hcw, hch⟩ := autoFit_main data s region hfr hne hgx hgy
  have hxne : ((region.map (·.x)).map JsNum.toQ) ≠ [] := by simp [hne]
  have hyne : ((region.map (·.y)).map JsNum.toQ) ≠ [] := by simp [hne]
  unfold C2Post
  refine ⟨?_, ?_, ?_, ?_, jsMin0_nonpos _, jsMin0_nonpos _,
    jsMin0_le_listMax _ hxne, jsMin0_le_listMax _ hyne, ?_, ?_, ?_, ?_, ?_⟩
  · rw [hcx, pad_eq_ite]
  · rw [hcy, pad_eq_ite]
  · rw [hcw, pad_eq_ite]
  · rw [hch, pad_eq_ite]
  · intro p hp
    have hmx : JsNum.toQ p.x ∈ (region.map (·.x)).map JsNum.toQ :=
      List.mem_map_of_mem JsNum.toQ (List.mem_map_of_mem _ hp)
    have hmy : JsNum.toQ p.y ∈ (region.map (·.y)).map JsNum.toQ :=
      List.mem_map_of_mem JsNum.toQ (List.mem_map_of_mem _ hp)
    exact ⟨jsMin0_le_mem _ _ hmx, mem_le_listMax _ _ hmx,
      jsMin0_le_mem _ _ hmy, mem_le_listMax _ _ hmy⟩
  · exact foldl_min_mem _ 0
  · exact listMax_mem _ hxne
  · exact foldl_min_mem _ 0
  · exact listMax_mem _ hyne

/-- C2 witness for the amended claim: the carpentry example's region. -/
theorem c2_fitBoundingBox_witness :
    C2Post exSolution classInitState
      [⟨.num 0, .num 0⟩, ⟨.num 4, .num 0⟩, ⟨.num 4, .num 3⟩, ⟨.num 2, .num 6⟩, ⟨.num 0, .num 6⟩] :=
  c2_fitBoundingBox exSolution classInitState _ rfl (by decide) (by decide)

/-- C3 (bug exhibit): two zoom-in wheel events from the initial state leave
spacing 1; `resetCamera` with no stored solution then restores the default
12×12 camera — a camera change — but does not recompute the grid: the stored
spacing stays 1 while the grid computed from the restored camera has
spacing 2, so the state is not a `generateTicks` fixpoint. -/
theorem c3_resetSkipsGridRecompute :
    camera (resetCamera zoomedState) ≠ camera zoomedState
    ∧ zoomedState.solution = none
    ∧ zoomedState.gridSize = 1
    ∧ (resetCamera zoomedState).gridSize = 1
    ∧ (generateTicks (resetCamera zoomedState)).gridSize = 2
    ∧ generateTicks (resetCamera zoomedState) ≠ resetCamera zoomedState := by
  have hzw : zoomedState.camWidth = 12 / (11/10) / (11/10) := rfl
  have hne1 : (12 : ℚ) / (11/10) / (11/10) ≠ 12 := by norm_num
  have hgz : zoomedState.gridSize
      = selectGridSize (12 / (11/10) / (11/10)) (12 / (11/10) / (11/10)) := rfl
  have hg1 : selectGridSize ((12:ℚ) / (11/10) / (11/10)) (12 / (11/10) / (11/10)) = 1 := by
    norm_num [selectGridSize]
  have hrgz : (resetCamera zoomedState).gridSize = zoomedState.gridSize := rfl
  have hggz : (generateTicks (resetCamera zoomedState)).gridSize
      = selectGridSize 12 12 := rfl
  have hg2 : selectGridSize (12:ℚ) 12 = 2 := by norm_num [selectGridSize]
  refine ⟨?_, rfl, ?_, ?_, ?_, ?_⟩
  · intro h
    have h3 := congrArg (fun t : ℚ × ℚ × ℚ × ℚ => t.2.2.1) h
    simp only [camera] at h3
    have h5 : (resetCamera zoomedState).camWidth = 12 := rfl
    rw [h5, hzw] at h3
    exact hne1 h3.symm
  · rw [hgz]
    exact hg1
  · rw [hrgz, hgz]
    exact hg1
  · rw [hggz]
    exact hg2
  · intro h
    have h6 := congrArg AppState.gridSize h
    rw [hggz, hg2, hrgz, hgz, hg1] at h6
    norm_num at h6

